import Mathlib

/-!
Shallow embedding of `pricing_engine.py` (and the greeks filter of `app.py`)
from the Option-Pricing-and-Analytics repository, together with proofs of the
specification claims about it.

Conventions of the embedding:
* Python floats are modelled as real numbers `ℝ`.
* `scipy.stats.norm.cdf` is the standard normal CDF, modelled as `normCdf`.
* Fallible code (Python `raise`, `ZeroDivisionError`, `math` domain errors)
  is modelled in the `Except String` monad; the string records which Python
  exception is raised.
* Bounded `for _ in range(max_iter)` loops are modelled as fuel recursion.
-/

open Real MeasureTheory Set

noncomputable section

namespace PricingEngine

/-- The standard normal cumulative distribution function `Φ`
(`scipy.stats.norm.cdf` in the source). -/
def normCdf (x : ℝ) : ℝ :=
  (Real.sqrt (2 * Real.pi))⁻¹ * ∫ t in Iic x, Real.exp (-t ^ 2 / 2)

/-- The standard normal probability density function (`scipy.stats.norm.pdf`). -/
def normPdf (x : ℝ) : ℝ :=
  (Real.sqrt (2 * Real.pi))⁻¹ * Real.exp (-x ^ 2 / 2)

/-- The gaussian density is integrable on any set. -/
lemma integrableExpNegSqHalf : Integrable (fun t : ℝ => Real.exp (-t ^ 2 / 2)) := by
  have h : (fun t : ℝ => Real.exp (-t ^ 2 / 2))
      = fun t : ℝ => Real.exp (-(2⁻¹ : ℝ) * t ^ 2) := by
    funext t; ring_nf
  rw [h]
  exact integrable_exp_neg_mul_sq (by norm_num)

/-- Total mass of the gaussian density: `∫ exp(-t²/2) = √(2π)`. -/
lemma integralExpNegSqHalf :
    (∫ t : ℝ, Real.exp (-t ^ 2 / 2)) = Real.sqrt (2 * Real.pi) := by
  have h : (fun t : ℝ => Real.exp (-t ^ 2 / 2))
      = fun t : ℝ => Real.exp (-(2⁻¹ : ℝ) * t ^ 2) := by
    funext t; ring_nf
  rw [h, integral_gaussian]
  rw [show Real.pi / 2⁻¹ = 2 * Real.pi by ring]

/-- Symmetry of the standard normal CDF: `Φ(x) + Φ(-x) = 1`. -/
lemma normCdf_add_normCdf_neg (x : ℝ) : normCdf x + normCdf (-x) = 1 := by
  have hint := integrableExpNegSqHalf
  have hneg : (∫ t in Iic (-x), Real.exp (-t ^ 2 / 2))
      = ∫ t in Ioi x, Real.exp (-t ^ 2 / 2) := by
    have := integral_comp_neg_Ioi x (fun t => Real.exp (-t ^ 2 / 2))
    rw [← this]
    simp only [neg_sq]
  have hsplit : (∫ t in Iic x, Real.exp (-t ^ 2 / 2))
      + (∫ t in Ioi x, Real.exp (-t ^ 2 / 2)) = Real.sqrt (2 * Real.pi) := by
    rw [intervalIntegral.integral_Iic_add_Ioi hint.integrableOn hint.integrableOn,
      integralExpNegSqHalf]
  have hpos : (0 : ℝ) < Real.sqrt (2 * Real.pi) :=
    Real.sqrt_pos.mpr (by positivity)
  unfold normCdf
  rw [hneg, ← mul_add, hsplit]
  field_simp

/-- The Python `str.lower()` method, modelled on the character list.  -/
def pyLower (s : String) : String := ⟨s.data.map Char.toLower⟩

/-!  ## `BSMAnalytical` (pricing_engine.py lines 7-80)

The Python class stores the constructor arguments (with `option_type`
lowercased) after validating them; `mkBSMAnalytical` models `__init__`,
raising `ValueError` exactly where the source does.  -/

structure BSMAnalytical where
  S : ℝ
  K : ℝ
  T : ℝ
  r : ℝ
  sigma : ℝ
  c : ℝ
  optionType : String

/-- `BSMAnalytical.__init__`: lowercase the option type, reject an unknown
type, reject `T ≤ 0` or `sigma ≤ 0`. -/
def mkBSMAnalytical (S K T r sigma c : ℝ) (optionType : String) :
    Except String BSMAnalytical :=
  if pyLower optionType ≠ "call" ∧ pyLower optionType ≠ "put" then
    .error "ValueError: option_type must be call or put"
  else if T ≤ 0 ∨ sigma ≤ 0 then
    .error "ValueError: T and sigma must be positive"
  else
    .ok ⟨S, K, T, r, sigma, c, pyLower optionType⟩

namespace BSMAnalytical

/-- `_d1_d2` first component. -/
def d1 (b : BSMAnalytical) : ℝ :=
  (Real.log (b.S / b.K) + (b.r - b.c + 0.5 * b.sigma ^ 2) * b.T)
    / (b.sigma * Real.sqrt b.T)

/-- `_d1_d2` second component. -/
def d2 (b : BSMAnalytical) : ℝ :=
  b.d1 - b.sigma * Real.sqrt b.T

/-- `BSMAnalytical.price`. -/
def price (b : BSMAnalytical) : ℝ :=
  if b.optionType = "call" then
    b.S * Real.exp (-b.c * b.T) * normCdf b.d1
      - b.K * Real.exp (-b.r * b.T) * normCdf b.d2
  else
    b.K * Real.exp (-b.r * b.T) * normCdf (-b.d2)
      - b.S * Real.exp (-b.c * b.T) * normCdf (-b.d1)

/-- `BSMAnalytical.delta`. -/
def delta (b : BSMAnalytical) : ℝ :=
  if b.optionType = "call" then
    Real.exp (-b.c * b.T) * normCdf b.d1
  else
    -(Real.exp (-b.c * b.T) * normCdf (-b.d1))

/-- `BSMAnalytical.gamma`. -/
def gamma (b : BSMAnalytical) : ℝ :=
  Real.exp (-b.c * b.T) * normPdf b.d1 / (b.S * b.sigma * Real.sqrt b.T)

/-- `BSMAnalytical.vega`. -/
def vega (b : BSMAnalytical) : ℝ :=
  b.S * Real.exp (-b.c * b.T) * normPdf b.d1 * Real.sqrt b.T

/-- `BSMAnalytical.theta`. -/
def theta (b : BSMAnalytical) : ℝ :=
  if b.optionType = "call" then
    -(b.S * Real.exp (-b.c * b.T) * normPdf b.d1 * b.sigma)
        / (2 * Real.sqrt b.T)
      + -(b.r * b.K * Real.exp (-b.r * b.T) * normCdf b.d2)
      + b.c * b.S * Real.exp (-b.c * b.T) * normCdf b.d1
  else
    -(b.S * Real.exp (-b.c * b.T) * normPdf b.d1 * b.sigma)
        / (2 * Real.sqrt b.T)
      + b.r * b.K * Real.exp (-b.r * b.T) * normCdf (-b.d2)
      + -(b.c * b.S * Real.exp (-b.c * b.T) * normCdf (-b.d1))

/-- `BSMAnalytical.rho`. -/
def rho (b : BSMAnalytical) : ℝ :=
  if b.optionType = "call" then
    b.K * b.T * Real.exp (-b.r * b.T) * normCdf b.d2
  else
    -(b.K * b.T * Real.exp (-b.r * b.T) * normCdf (-b.d2))

/-- `BSMAnalytical.all_greeks`: the returned dict, as an association list in
insertion order. -/
def allGreeks (b : BSMAnalytical) : List (String × ℝ) :=
  [("Price", b.price),
   ("Delta", b.delta),
   ("Gamma", b.gamma),
   ("Vega (per 1.0 vol)", b.vega),
   ("Vega (per 1% vol)", b.vega * 0.01),
   ("Theta (annual)", b.theta),
   ("Theta (per day)", b.theta / 365.0),
   ("Rho (per 1.0 rate)", b.rho),
   ("Rho (per 1% rate)", b.rho * 0.01)]

end BSMAnalytical

/-- `app.py` line 48: the greeks mapping sent to the caller, a dict
comprehension over `bsm.all_greeks()` keeping every key other than
`"Price"`. -/
def priceOptionGreeks (b : BSMAnalytical) : List (String × ℝ) :=
  b.allGreeks.filter (fun kv => kv.1 ≠ "Price")

/-!  ## `implied_volatility` (pricing_engine.py lines 82-120)

The two `for _ in range(max_iter)` loops become fuel recursion.  Each loop
iteration constructs a `BSMAnalytical`, so a `ValueError` raised by the
constructor aborts the whole solve; this is modelled by the `Except` bind. -/

/-- The Newton-Raphson loop (lines 94-107).  `.ok (some σ)` models the
`return sigma` statement, `.ok none` models `break` or loop exhaustion
(after which the Python code falls through to bisection). -/
def newtonPhase (mp S K T r c : ℝ) (optionType : String) (tol : ℝ) :
    ℕ → ℝ → Except String (Option ℝ)
  | 0, _ => .ok none
  | fuel + 1, sigma =>
    match mkBSMAnalytical S K T r sigma c optionType with
    | .error e => .error e
    | .ok b =>
      if |b.price - mp| < tol then
        .ok (some sigma)
      else if b.vega < 1e-8 then
        .ok none
      else if sigma - (b.price - mp) / b.vega < 1e-8
          ∨ sigma - (b.price - mp) / b.vega > 5.0 then
        .ok none
      else
        newtonPhase mp S K T r c optionType tol fuel
          (sigma - (b.price - mp) / b.vega)

/-- The bisection loop (lines 109-120).  Fuel `0` models falling off the end
of the loop, where the Python code returns `(low + high) / 2`. -/
def bisectionPhase (mp S K T r c : ℝ) (optionType : String) (tol : ℝ) :
    ℕ → ℝ → ℝ → Except String ℝ
  | 0, low, high => .ok ((low + high) / 2)
  | fuel + 1, low, high =>
    match mkBSMAnalytical S K T r ((low + high) / 2) c optionType with
    | .error e => .error e
    | .ok b =>
      if |b.price - mp| < tol then
        .ok ((low + high) / 2)
      else if b.price > mp then
        bisectionPhase mp S K T r c optionType tol fuel low ((low + high) / 2)
      else
        bisectionPhase mp S K T r c optionType tol fuel ((low + high) / 2) high

/-- The root-finding part of `implied_volatility` (lines 94-120): the Newton
phase starting at `σ = 0.2`, then — if it did not return — bisection over
the bracket `[1e-8, 5.0]`. -/
def ivSolve (mp S K T r c : ℝ) (optionType : String) (tol : ℝ)
    (maxIter : ℕ) : Except String ℝ :=
  match newtonPhase mp S K T r c optionType tol maxIter 0.2 with
  | .error e => .error e
  | .ok (some sigma) => .ok sigma
  | .ok none => bisectionPhase mp S K T r c optionType tol maxIter 1e-8 5.0

/-- `implied_volatility` (lines 82-120); in the source `tol` defaults to
`1e-8` and `max_iter` to `100`. -/
def impliedVolatility (mp S K T r c : ℝ) (optionType : String)
    (tol : ℝ) (maxIter : ℕ) : Except String ℝ :=
  if mp < 0 then
    .error "ValueError: Market price must be non-negative"
  else if mp ≤ (if optionType = "call" then
                  max (S * Real.exp (-c * T) - K * Real.exp (-r * T)) 0
                else
                  max (K * Real.exp (-r * T) - S * Real.exp (-c * T)) 0) then
    .ok 1e-8
  else
    ivSolve mp S K T r c optionType tol maxIter

/-!  ## Barone-Adesi-Whaley (pricing_engine.py lines 122-147)

Python failure modes are modelled explicitly: `math.sqrt` of a negative
number raises `ValueError`, and float division by zero raises
`ZeroDivisionError`. -/

/-- The positive root `q2` of the BAW characteristic quadratic (line 126). -/
def bawQ2 (r sigma c : ℝ) : ℝ :=
  (-(r - c - sigma ^ 2 / 2)
    + Real.sqrt ((r - c - sigma ^ 2 / 2) ^ 2 + 2 * r * sigma ^ 2)) / sigma ^ 2

/-- The negative root `q1` of the BAW characteristic quadratic (line 138). -/
def bawQ1 (r sigma c : ℝ) : ℝ :=
  (-(r - c - sigma ^ 2 / 2)
    - Real.sqrt ((r - c - sigma ^ 2 / 2) ^ 2 + 2 * r * sigma ^ 2)) / sigma ^ 2

/-- `baw_american_call` (lines 122-135). -/
def bawAmericanCall (S K T r sigma c : ℝ) : Except String ℝ :=
  if r ≤ c then
    (mkBSMAnalytical S K T r sigma c "call").map BSMAnalytical.price
  else if (r - c - sigma ^ 2 / 2) ^ 2 + 2 * r * sigma ^ 2 < 0 then
    .error "ValueError: math domain error"
  else if sigma ^ 2 = 0 then
    .error "ZeroDivisionError"
  else if bawQ2 r sigma c = 0 then
    .error "ZeroDivisionError"
  else if 1 - 1 / bawQ2 r sigma c = 0 then
    .error "ZeroDivisionError"
  else if S ≥ K / (1 - 1 / bawQ2 r sigma c) then
    .ok (S - K)
  else
    match mkBSMAnalytical S K T r sigma c "call" with
    | .error e => .error e
    | .ok b =>
      let sStar := K / (1 - 1 / bawQ2 r sigma c)
      let d1 := (Real.log (S / K) + (r - c + sigma ^ 2 / 2) * T)
        / (sigma * Real.sqrt T)
      let A2 := sStar / bawQ2 r sigma c
        * (1 - Real.exp (-c * T) * normCdf (d1 + sigma * Real.sqrt T))
      .ok (b.price + A2 * (S / sStar) ^ bawQ2 r sigma c)

/-- `baw_american_put` (lines 137-147). -/
def bawAmericanPut (S K T r sigma c : ℝ) : Except String ℝ :=
  if (r - c - sigma ^ 2 / 2) ^ 2 + 2 * r * sigma ^ 2 < 0 then
    .error "ValueError: math domain error"
  else if sigma ^ 2 = 0 then
    .error "ZeroDivisionError"
  else if bawQ1 r sigma c = 0 then
    .error "ZeroDivisionError"
  else if 1 - 1 / bawQ1 r sigma c = 0 then
    .error "ZeroDivisionError"
  else if S ≤ K / (1 - 1 / bawQ1 r sigma c) then
    .ok (K - S)
  else
    match mkBSMAnalytical S K T r sigma c "put" with
    | .error e => .error e
    | .ok b =>
      let sStar := K / (1 - 1 / bawQ1 r sigma c)
      let d1 := (Real.log (S / K) + (r - c + sigma ^ 2 / 2) * T)
        / (sigma * Real.sqrt T)
      let A1 := -sStar / bawQ1 r sigma c
        * (1 - Real.exp (-c * T) * normCdf (-(d1 + sigma * Real.sqrt T)))
      .ok (b.price + A1 * (S / sStar) ^ bawQ1 r sigma c)

/-!  ## `BinomialTree` (pricing_engine.py lines 152-183) -/

/-- Entries of the `stock_tree` array built in `BinomialTree.__init__`
(lines 162-167): `stock_tree[0,0] = S0`, `stock_tree[0,i] =
stock_tree[0,i-1]·u`, `stock_tree[j,i] = stock_tree[j-1,i-1]·d`; entries
with `j > i`, never assigned, keep the `np.zeros` value `0`. -/
def binomialStock (S0 u d : ℝ) : ℕ → ℕ → ℝ
  | 0, 0 => S0
  | 0, i + 1 => binomialStock S0 u d 0 i * u
  | _ + 1, 0 => 0
  | j + 1, i + 1 => binomialStock S0 u d j i * d

structure BinomialTree where
  T : ℝ
  S0 : ℝ
  r : ℝ
  sigma : ℝ
  c : ℝ
  K : ℝ
  n : ℕ
  optionType : String
  dt : ℝ
  u : ℝ
  d : ℝ
  q : ℝ
  R : ℝ
  stockTree : ℕ → ℕ → ℝ

/-- The field computations of `BinomialTree.__init__` (lines 153-167). -/
def binomialFields (T S0 r sigma c K : ℝ) (n : ℕ) (optionType : String) :
    BinomialTree :=
  let dt := T / n
  let u := Real.exp (sigma * Real.sqrt dt)
  let d := 1 / u
  ⟨T, S0, r, sigma, c, K, n, pyLower optionType, dt, u, d,
    (Real.exp ((r - c) * dt) - d) / (u - d), Real.exp (r * dt),
    binomialStock S0 u d⟩

/-- `BinomialTree.__init__` with the implicit Python failures: `T/n` raises
`ZeroDivisionError` when `n == 0`, `math.sqrt(dt)` raises `ValueError` when
`dt < 0`, and the `q` formula divides by zero when `u == d` (i.e. when
`sigma·√dt == 0`).  There is no explicit validation in the source. -/
def mkBinomialTree (T S0 r sigma c K : ℝ) (n : ℕ) (optionType : String) :
    Except String BinomialTree :=
  if n = 0 then .error "ZeroDivisionError"
  else if T / n < 0 then .error "ValueError: math domain error"
  else if Real.exp (sigma * Real.sqrt (T / n))
      - 1 / Real.exp (sigma * Real.sqrt (T / n)) = 0 then
    .error "ZeroDivisionError"
  else
    .ok (binomialFields T S0 r sigma c K n optionType)

/-!  ## `TrinomialTree` (pricing_engine.py lines 188-227) -/

structure TrinomialTree where
  T : ℝ
  S0 : ℝ
  r : ℝ
  sigma : ℝ
  c : ℝ
  K : ℝ
  n : ℕ
  optionType : String
  dt : ℝ
  dr : ℝ
  p_u : ℝ
  p_d : ℝ
  p_m : ℝ
  R : ℝ

/-- The field computations of `TrinomialTree.__init__` (lines 189-199): raw
`p_u`/`p_d` from the moment-matching formula, floored at `0`
(`max(p, 0)`), and `p_m` recomputed as `1 - p_u - p_d` after the floor
(the pre-clamp `p_m` of line 196 is overwritten on line 198). -/
def trinomialFields (T S0 r sigma c K : ℝ) (n : ℕ) (optionType : String) :
    TrinomialTree :=
  let dt := T / n
  let pu0 := 1 / 6 + (r - c - 0.5 * sigma ^ 2) * Real.sqrt dt
      / (2 * sigma * Real.sqrt 3)
  let pd0 := 1 / 6 - (r - c - 0.5 * sigma ^ 2) * Real.sqrt dt
      / (2 * sigma * Real.sqrt 3)
  ⟨T, S0, r, sigma, c, K, n, pyLower optionType, dt,
    sigma * Real.sqrt (3 * dt),
    max pu0 0, max pd0 0, 1 - max pu0 0 - max pd0 0,
    Real.exp (r * dt)⟩

/-- `TrinomialTree.__init__` with the implicit Python failures: `T/n` raises
`ZeroDivisionError` when `n == 0`, `math.sqrt(3*dt)` / `math.sqrt(dt)`
raise `ValueError` when `dt < 0`, and the `p_u`/`p_d` formulas divide by
zero when `sigma == 0`.  There is no explicit validation in the source. -/
def mkTrinomialTree (T S0 r sigma c K : ℝ) (n : ℕ) (optionType : String) :
    Except String TrinomialTree :=
  if n = 0 then .error "ZeroDivisionError"
  else if T / n < 0 then .error "ValueError: math domain error"
  else if 2 * sigma * Real.sqrt 3 = 0 then .error "ZeroDivisionError"
  else
    .ok (trinomialFields T S0 r sigma c K n optionType)

/-!  ## Helper lemmas -/

lemma pyLower_call : pyLower "call" = "call" := by decide

lemma pyLower_put : pyLower "put" = "put" := by decide

/-- A valid construction with option type `"call"` stores its arguments. -/
lemma mkBSM_call_ok (S K T r sigma c : ℝ) (hT : 0 < T) (hsig : 0 < sigma) :
    mkBSMAnalytical S K T r sigma c "call" = .ok ⟨S, K, T, r, sigma, c, "call"⟩ := by
  unfold mkBSMAnalytical
  rw [if_neg (by rw [pyLower_call]; simp), if_neg (by push_neg; exact ⟨hT, hsig⟩),
    pyLower_call]

/-- A valid construction with option type `"put"` stores its arguments. -/
lemma mkBSM_put_ok (S K T r sigma c : ℝ) (hT : 0 < T) (hsig : 0 < sigma) :
    mkBSMAnalytical S K T r sigma c "put" = .ok ⟨S, K, T, r, sigma, c, "put"⟩ := by
  unfold mkBSMAnalytical
  rw [if_neg (by rw [pyLower_put]; simp), if_neg (by push_neg; exact ⟨hT, hsig⟩),
    pyLower_put]

/-- `price` on a record with option type `"call"` takes the call branch. -/
lemma price_call_fields (S K T r sigma c : ℝ) :
    BSMAnalytical.price ⟨S, K, T, r, sigma, c, "call"⟩
      = S * Real.exp (-c * T)
          * normCdf (BSMAnalytical.d1 ⟨S, K, T, r, sigma, c, "call"⟩)
        - K * Real.exp (-r * T)
          * normCdf (BSMAnalytical.d2 ⟨S, K, T, r, sigma, c, "call"⟩) := by
  unfold BSMAnalytical.price
  rw [if_pos]
  rfl

/-- `price` on a record with option type `"put"` takes the put branch. -/
lemma price_put_fields (S K T r sigma c : ℝ) :
    BSMAnalytical.price ⟨S, K, T, r, sigma, c, "put"⟩
      = K * Real.exp (-r * T)
          * normCdf (-BSMAnalytical.d2 ⟨S, K, T, r, sigma, c, "put"⟩)
        - S * Real.exp (-c * T)
          * normCdf (-BSMAnalytical.d1 ⟨S, K, T, r, sigma, c, "put"⟩) := by
  have hne : (⟨S, K, T, r, sigma, c, "put"⟩ : BSMAnalytical).optionType ≠ "call" := by
    simp
  unfold BSMAnalytical.price
  rw [if_neg hne]

/-- `d1` of a record, written out on its fields. -/
lemma d1_fields (S K T r sigma c : ℝ) (ot : String) :
    BSMAnalytical.d1 ⟨S, K, T, r, sigma, c, ot⟩
      = (Real.log (S / K) + (r - c + 0.5 * sigma ^ 2) * T)
          / (sigma * Real.sqrt T) := rfl

/-- `d2` of a record, written out on its fields. -/
lemma d2_fields (S K T r sigma c : ℝ) (ot : String) :
    BSMAnalytical.d2 ⟨S, K, T, r, sigma, c, ot⟩
      = BSMAnalytical.d1 ⟨S, K, T, r, sigma, c, ot⟩ - sigma * Real.sqrt T := rfl

/-!  ## Claims -/

/-- C1: for S>0, K>0, T>0, σ>0, `BSMAnalytical.price` returns
`S·e^(−cT)·Φ(d1) − K·e^(−rT)·Φ(d2)` for a call and
`K·e^(−rT)·Φ(−d2) − S·e^(−cT)·Φ(−d1)` for a put, with
`d1 = (ln(S/K) + (r − c + σ²/2)·T)/(σ·√T)`, `d2 = d1 − σ·√T`, and `Φ` the
standard normal CDF. -/
theorem bsm_price_closed_form (S K T r sigma c : ℝ)
    (hS : 0 < S) (hK : 0 < K) (hT : 0 < T) (hsig : 0 < sigma) :
    (BSMAnalytical.price ⟨S, K, T, r, sigma, c, "call"⟩ =
      S * Real.exp (-c * T) *
          normCdf ((Real.log (S / K) + (r - c + sigma ^ 2 / 2) * T)
            / (sigma * Real.sqrt T))
        - K * Real.exp (-r * T) *
          normCdf ((Real.log (S / K) + (r - c + sigma ^ 2 / 2) * T)
              / (sigma * Real.sqrt T) - sigma * Real.sqrt T))
    ∧ (BSMAnalytical.price ⟨S, K, T, r, sigma, c, "put"⟩ =
      K * Real.exp (-r * T) *
          normCdf (-((Real.log (S / K) + (r - c + sigma ^ 2 / 2) * T)
              / (sigma * Real.sqrt T) - sigma * Real.sqrt T))
        - S * Real.exp (-c * T) *
          normCdf (-((Real.log (S / K) + (r - c + sigma ^ 2 / 2) * T)
            / (sigma * Real.sqrt T)))) := by
  constructor
  · rw [price_call_fields, d2_fields, d1_fields]
    ring_nf
  · rw [price_put_fields, d2_fields, d1_fields]
    ring_nf

/-- Witness for C1 at `S=K=100, T=1, r=0.05, σ=0.2, c=0`. -/
theorem bsm_price_closed_form_witness :
    BSMAnalytical.price ⟨100, 100, 1, 0.05, 0.2, 0, "call"⟩ =
      100 * Real.exp (-0 * 1) *
          normCdf ((Real.log (100 / 100) + (0.05 - 0 + 0.2 ^ 2 / 2) * 1)
            / (0.2 * Real.sqrt 1))
        - 100 * Real.exp (-0.05 * 1) *
          normCdf ((Real.log (100 / 100) + (0.05 - 0 + 0.2 ^ 2 / 2) * 1)
              / (0.2 * Real.sqrt 1) - 0.2 * Real.sqrt 1) :=
  (bsm_price_closed_form 100 100 1 0.05 0.2 0 (by norm_num) (by norm_num)
    (by norm_num) (by norm_num)).1

/-- C2: put-call parity — for S>0, K>0, T>0, σ>0 the analytic call price
minus the analytic put price (same parameters) is
`S·e^(−cT) − K·e^(−rT)`, exactly. -/
theorem put_call_parity (S K T r sigma c : ℝ)
    (hS : 0 < S) (hK : 0 < K) (hT : 0 < T) (hsig : 0 < sigma) :
    BSMAnalytical.price ⟨S, K, T, r, sigma, c, "call"⟩
      - BSMAnalytical.price ⟨S, K, T, r, sigma, c, "put"⟩
    = S * Real.exp (-c * T) - K * Real.exp (-r * T) := by
  have h1 := normCdf_add_normCdf_neg
    (BSMAnalytical.d1 ⟨S, K, T, r, sigma, c, "call"⟩)
  have h2 := normCdf_add_normCdf_neg
    (BSMAnalytical.d2 ⟨S, K, T, r, sigma, c, "call"⟩)
  have hd1 : BSMAnalytical.d1 ⟨S, K, T, r, sigma, c, "put"⟩
      = BSMAnalytical.d1 ⟨S, K, T, r, sigma, c, "call"⟩ := rfl
  have hd2 : BSMAnalytical.d2 ⟨S, K, T, r, sigma, c, "put"⟩
      = BSMAnalytical.d2 ⟨S, K, T, r, sigma, c, "call"⟩ := rfl
  rw [price_call_fields, price_put_fields, hd1, hd2]
  linear_combination S * Real.exp (-c * T) * h1 - K * Real.exp (-r * T) * h2

/-- Witness for C2 at `S=K=100, T=1, r=0.05, σ=0.2, c=0`. -/
theorem put_call_parity_witness :
    BSMAnalytical.price ⟨100, 100, 1, 0.05, 0.2, 0, "call"⟩
      - BSMAnalytical.price ⟨100, 100, 1, 0.05, 0.2, 0, "put"⟩
    = 100 * Real.exp (-0 * 1) - 100 * Real.exp (-0.05 * 1) :=
  put_call_parity 100 100 1 0.05 0.2 0 (by norm_num) (by norm_num)
    (by norm_num) (by norm_num)

/-- C4: when `c ≥ r` (with S, K, T, σ positive), `baw_american_call` takes
the shortcut branch and returns exactly the European `BSMAnalytical` call
price. -/
theorem baw_call_equals_european (S K T r sigma c : ℝ)
    (hS : 0 < S) (hK : 0 < K) (hT : 0 < T) (hsig : 0 < sigma) (h : r ≤ c) :
    bawAmericanCall S K T r sigma c
      = .ok (BSMAnalytical.price ⟨S, K, T, r, sigma, c, "call"⟩) := by
  unfold bawAmericanCall
  rw [if_pos h, mkBSM_call_ok S K T r sigma c hT hsig]
  rfl

/-- Witness for C4 at `S=K=100, T=1, r=0.02, σ=0.2, c=0.05`. -/
theorem baw_call_equals_european_witness :
    bawAmericanCall 100 100 1 0.02 0.2 0.05
      = .ok (BSMAnalytical.price ⟨100, 100, 1, 0.02, 0.2, 0.05, "call"⟩) :=
  baw_call_equals_european 100 100 1 0.02 0.2 0.05 (by norm_num) (by norm_num)
    (by norm_num) (by norm_num) (by norm_num)

/-- C5: `BSMAnalytical` construction succeeds exactly when the (lowercased)
option type is `"call"` or `"put"`, `T > 0` and `σ > 0`; otherwise it
raises a validation error and no priced object exists. -/
theorem mkBSM_ok_iff (S K T r sigma c : ℝ) (ot : String) :
    (∃ b, mkBSMAnalytical S K T r sigma c ot = .ok b)
      ↔ ((pyLower ot = "call" ∨ pyLower ot = "put") ∧ 0 < T ∧ 0 < sigma) := by
  constructor
  · rintro ⟨b, hb⟩
    unfold mkBSMAnalytical at hb
    by_cases h1 : pyLower ot ≠ "call" ∧ pyLower ot ≠ "put"
    · rw [if_pos h1] at hb
      exact absurd hb (by simp)
    · rw [if_neg h1] at hb
      by_cases h2 : T ≤ 0 ∨ sigma ≤ 0
      · rw [if_pos h2] at hb
        exact absurd hb (by simp)
      · push_neg at h1 h2
        refine ⟨?_, h2.1, h2.2⟩
        by_cases hc : pyLower ot = "call"
        · exact Or.inl hc
        · exact Or.inr (h1 hc)
  · rintro ⟨hor, hT, hs⟩
    unfold mkBSMAnalytical
    rw [if_neg (by rcases hor with h | h <;> simp [h]),
      if_neg (by push_neg; exact ⟨hT, hs⟩)]
    exact ⟨_, rfl⟩

/-- C8: the probabilities stored by the trinomial constructor satisfy
`p_u ≥ 0`, `p_d ≥ 0` and `p_u + p_m + p_d = 1` exactly: the up/down
probabilities are floored at zero and the middle probability is recomputed
as their complement. -/
theorem trinomial_probabilities_clamped (T S0 r sigma c K : ℝ) (n : ℕ)
    (ot : String) :
    0 ≤ (trinomialFields T S0 r sigma c K n ot).p_u
    ∧ 0 ≤ (trinomialFields T S0 r sigma c K n ot).p_d
    ∧ (trinomialFields T S0 r sigma c K n ot).p_u
        + (trinomialFields T S0 r sigma c K n ot).p_m
        + (trinomialFields T S0 r sigma c K n ot).p_d = 1 := by
  refine ⟨le_max_right _ _, le_max_right _ _, ?_⟩
  simp only [trinomialFields]
  ring

/-- C3: whenever the market price is at or below the discounted intrinsic
value of the given option type, `implied_volatility` returns the floor
`1e-8` through its early-return branch. -/
theorem iv_floor_at_intrinsic (mp S K T r c tol : ℝ) (maxIter : ℕ)
    (optionType : String) (hmp : 0 ≤ mp)
    (hintr : (optionType = "call"
        ∧ mp ≤ max (S * Real.exp (-c * T) - K * Real.exp (-r * T)) 0)
      ∨ (optionType = "put"
        ∧ mp ≤ max (K * Real.exp (-r * T) - S * Real.exp (-c * T)) 0)) :
    impliedVolatility mp S K T r c optionType tol maxIter = .ok 1e-8 := by
  unfold impliedVolatility
  rw [if_neg (not_lt.mpr hmp)]
  rcases hintr with ⟨hk, hle⟩ | ⟨hk, hle⟩
  · rw [hk]
    have hin : (if ("call" : String) = "call"
        then max (S * Real.exp (-c * T) - K * Real.exp (-r * T)) 0
        else max (K * Real.exp (-r * T) - S * Real.exp (-c * T)) 0)
        = max (S * Real.exp (-c * T) - K * Real.exp (-r * T)) 0 := if_pos rfl
    rw [hin, if_pos hle]
  · rw [hk]
    have hin : (if ("put" : String) = "call"
        then max (S * Real.exp (-c * T) - K * Real.exp (-r * T)) 0
        else max (K * Real.exp (-r * T) - S * Real.exp (-c * T)) 0)
        = max (K * Real.exp (-r * T) - S * Real.exp (-c * T)) 0 :=
      if_neg (by simp)
    rw [hin, if_pos hle]

/-- Witness for C3: a worthless call quoted at `0` with zero carry gets the
floor volatility. -/
theorem iv_floor_at_intrinsic_witness :
    impliedVolatility 0 100 100 1 0 0 "call" 1e-8 100 = .ok 1e-8 :=
  iv_floor_at_intrinsic 0 100 100 1 0 0 1e-8 100 "call" le_rfl
    (Or.inl ⟨rfl, le_max_right _ 0⟩)

/-- The same evaluation as a standalone lemma, for use as a concrete input
elsewhere. -/
lemma iv_floor_example :
    impliedVolatility 0 100 100 1 0 0 "call" 1e-8 100 = .ok 1e-8 := by
  unfold impliedVolatility
  rw [if_neg (by norm_num)]
  have hin : (if ("call" : String) = "call"
      then max ((100 : ℝ) * Real.exp (-0 * 1) - 100 * Real.exp (-0 * 1)) 0
      else max ((100 : ℝ) * Real.exp (-0 * 1) - 100 * Real.exp (-0 * 1)) 0)
      = max ((100 : ℝ) * Real.exp (-0 * 1) - 100 * Real.exp (-0 * 1)) 0 :=
    if_pos rfl
  rw [hin, if_pos (le_max_right _ 0)]

/-- C6: the BAW pricers are not guarded.  At `c = 0 < r` (call) the
characteristic root `q2` is exactly `1`, and the critical-price formula
divides by zero: Python raises a bare `ZeroDivisionError`, not the
validation error.  And for `σ = -0.1 ≤ 0` the put can return a plain
numeric price (`K - S`) with no error at all. -/
theorem baw_degenerate_not_guarded :
    bawAmericanCall 80 100 1 (5 / 100) (2 / 10) 0 = .error "ZeroDivisionError"
    ∧ bawAmericanPut 50 100 1 (5 / 100) (-(1 / 10)) 0 = .ok 50 := by
  have hq2 : bawQ2 (5 / 100) (2 / 10) 0 = 1 := by
    unfold bawQ2
    rw [show ((5 / 100 : ℝ) - 0 - (2 / 10) ^ 2 / 2) ^ 2
          + 2 * (5 / 100) * (2 / 10) ^ 2 = (7 / 100) ^ 2 by norm_num,
      Real.sqrt_sq (by norm_num)]
    norm_num
  have hq1 : bawQ1 (5 / 100) (-(1 / 10)) 0 = -10 := by
    unfold bawQ1
    rw [show ((5 / 100 : ℝ) - 0 - (-(1 / 10)) ^ 2 / 2) ^ 2
          + 2 * (5 / 100) * (-(1 / 10)) ^ 2 = (11 / 200) ^ 2 by norm_num,
      Real.sqrt_sq (by norm_num)]
    norm_num
  constructor
  · unfold bawAmericanCall
    rw [hq2, if_neg (by norm_num), if_neg (by norm_num), if_neg (by norm_num),
      if_neg (by norm_num), if_pos (by norm_num)]
  · unfold bawAmericanPut
    rw [hq1, if_neg (by norm_num), if_neg (by norm_num), if_neg (by norm_num),
      if_neg (by norm_num), if_pos (by norm_num)]
    norm_num

/-- C7: the lattice constructors are not guarded either: with the degenerate
volatility `σ = -1/2 ≤ 0` both `BinomialTree.__init__` and
`TrinomialTree.__init__` succeed (no `DomainError`), silently building a
tree. -/
theorem lattice_negative_sigma_constructs :
    (mkBinomialTree 1 100 0 (-(1 / 2)) 0 100 1 "call").isOk = true
    ∧ (mkTrinomialTree 1 100 0 (-(1 / 2)) 0 100 1 "call").isOk = true := by
  constructor
  · have hs : Real.sqrt ((1 : ℝ) / ((1 : ℕ) : ℝ)) = 1 := by
      norm_num
    have hlt : Real.exp (-(1 / 2) * Real.sqrt ((1 : ℝ) / ((1 : ℕ) : ℝ))) < 1 := by
      rw [hs, mul_one]
      exact Real.exp_lt_one_iff.mpr (by norm_num)
    have hpos : 0 < Real.exp (-(1 / 2) * Real.sqrt ((1 : ℝ) / ((1 : ℕ) : ℝ))) :=
      Real.exp_pos _
    have hne : Real.exp (-(1 / 2) * Real.sqrt ((1 : ℝ) / ((1 : ℕ) : ℝ)))
        - 1 / Real.exp (-(1 / 2) * Real.sqrt ((1 : ℝ) / ((1 : ℕ) : ℝ))) ≠ 0 := by
      have hgt : Real.exp (-(1 / 2) * Real.sqrt ((1 : ℝ) / ((1 : ℕ) : ℝ)))
          < 1 / Real.exp (-(1 / 2) * Real.sqrt ((1 : ℝ) / ((1 : ℕ) : ℝ))) := by
        rw [lt_div_iff₀ hpos]
        nlinarith
      exact ne_of_lt (by linarith)
    unfold mkBinomialTree
    rw [if_neg (by norm_num), if_neg (by norm_num), if_neg hne]
    rfl
  · have h3 : (0 : ℝ) < Real.sqrt 3 := Real.sqrt_pos.mpr (by norm_num)
    unfold mkTrinomialTree
    rw [if_neg (by norm_num), if_neg (by norm_num),
      if_neg (by intro h; nlinarith)]
    rfl

/-- Any volatility handed back by the `return sigma` statement of the Newton
phase lies in the band `[1e-8, 5]`, provided the starting iterate does. -/
lemma newtonPhase_band (mp S K T r c tol : ℝ) (ot : String) :
    ∀ (fuel : ℕ) (sigma : ℝ), 1e-8 ≤ sigma → sigma ≤ 5 →
      ∀ s, newtonPhase mp S K T r c ot tol fuel sigma = .ok (some s) →
        1e-8 ≤ s ∧ s ≤ 5
  | 0, sigma, _, _, s, h => by simp [newtonPhase] at h
  | fuel + 1, sigma, hlo, hhi, s, h => by
    unfold newtonPhase at h
    split at h
    · exact absurd h (by simp)
    · split_ifs at h with h1 h2 h3
      · obtain rfl : sigma = s := by simpa using h
        exact ⟨hlo, hhi⟩
      · exact absurd h (by simp)
      · exact absurd h (by simp)
      · push_neg at h3
        exact newtonPhase_band mp S K T r c tol ot fuel _ h3.1
          (by linarith [h3.2]) s h

/-- Any value returned by the bisection phase lies between its initial
bracket ends, provided the bracket is ordered and inside `[1e-8, 5]`. -/
lemma bisectionPhase_band (mp S K T r c tol : ℝ) (ot : String) :
    ∀ (fuel : ℕ) (low high : ℝ), 1e-8 ≤ low → low ≤ high → high ≤ 5 →
      ∀ v, bisectionPhase mp S K T r c ot tol fuel low high = .ok v →
        1e-8 ≤ v ∧ v ≤ 5
  | 0, low, high, hlo, hord, hhi, v, h => by
    obtain rfl : (low + high) / 2 = v := by simpa [bisectionPhase] using h
    constructor <;> linarith
  | fuel + 1, low, high, hlo, hord, hhi, v, h => by
    unfold bisectionPhase at h
    split at h
    · exact absurd h (by simp)
    · split_ifs at h with h1 h2
      · obtain rfl : (low + high) / 2 = v := by simpa using h
        constructor <;> linarith
      · exact bisectionPhase_band mp S K T r c tol ot fuel low ((low + high) / 2)
          hlo (by linarith) (by linarith) v h
      · exact bisectionPhase_band mp S K T r c tol ot fuel ((low + high) / 2) high
          (by linarith) (by linarith) hhi v h

/-- The combined Newton-then-bisection solve only returns values in the
band `[1e-8, 5]`. -/
lemma ivSolve_band (mp S K T r c tol : ℝ) (maxIter : ℕ) (ot : String)
    (v : ℝ) (h : ivSolve mp S K T r c ot tol maxIter = .ok v) :
    1e-8 ≤ v ∧ v ≤ 5 := by
  unfold ivSolve at h
  split at h
  · exact absurd h (by simp)
  · rename_i sigma heq
    have hv : sigma = v := by simpa using h
    subst hv
    exact newtonPhase_band mp S K T r c tol ot maxIter 0.2
      (by norm_num) (by norm_num) sigma heq
  · exact bisectionPhase_band mp S K T r c tol ot maxIter 1e-8 5.0
      (by norm_num) (by norm_num) (by norm_num) v h

/-- C10: every volatility actually returned by `implied_volatility` lies in
the closed band `[1e-8, 5]`: the intrinsic-floor branch returns `1e-8`, the
Newton phase only returns iterates kept inside the band, and the bisection
phase only returns midpoints of sub-brackets of `[1e-8, 5]`. -/
theorem iv_result_in_band (mp S K T r c tol : ℝ) (maxIter : ℕ) (ot : String)
    (v : ℝ) (h : impliedVolatility mp S K T r c ot tol maxIter = .ok v) :
    1e-8 ≤ v ∧ v ≤ 5 := by
  unfold impliedVolatility at h
  split_ifs at h
  · obtain rfl : (1e-8 : ℝ) = v := by simpa using h
    norm_num
  · exact ivSolve_band mp S K T r c tol maxIter ot v h
  · obtain rfl : (1e-8 : ℝ) = v := by simpa using h
    norm_num
  · exact ivSolve_band mp S K T r c tol maxIter ot v h

/-- Witness for C10 at the concrete solve of `iv_floor_example`. -/
theorem iv_result_in_band_witness :
    (1e-8 : ℝ) ≤ 1e-8 ∧ (1e-8 : ℝ) ≤ 5 :=
  iv_result_in_band 0 100 100 1 0 0 1e-8 100 "call" 1e-8 iv_floor_example

/-- C9 counterexample: the dict returned by `all_greeks` itself does contain
the key `"Price"` (the filtering happens in `app.py`, not in the pricer). -/
theorem allGreeks_contains_price :
    "Price" ∈ (BSMAnalytical.allGreeks ⟨100, 100, 1, 0.05, 0.2, 0, "call"⟩).map
      Prod.fst := by
  simp [BSMAnalytical.allGreeks]

/-- C9 amended: `all_greeks` includes the price under the key `"Price"`; the
HTTP layer (`app.py` line 48) filters that entry out, so the greeks mapping
actually returned to callers excludes the price. -/
theorem priceOptionGreeks_excludes_price (b : BSMAnalytical) :
    "Price" ∉ (priceOptionGreeks b).map Prod.fst := by
  simp [priceOptionGreeks, BSMAnalytical.allGreeks]

end PricingEngine

end
